import Mathlib

/-!
Verification of the voice-segmenter pipeline (agents/voice-segmenter).

Shallow embedding of the Python sources:
  translator.py        (GeminiTranslator: prompts, response parsing, retry, history)
  audio_processor.py   (AudioProcessor: VAD segment handling, language set, publishing)
  agent.py             (room attribute-change handler)

Python strings are modelled as lists of characters; Python dicts arising from
JSON are modelled as key-value lists with first-occurrence lookup and
overwrite-in-place insertion (matching CPython dict semantics for the inputs
produced by json.loads, which deduplicates keys keeping the last value).
JSON numbers are modelled as integers; fractional and exponent forms are not
produced by any input considered here and make the modelled decoder fail.
-/

/-- Characters treated as whitespace by the Python str.strip default. -/
def pySpace (c : Char) : Bool :=
  c = ' ' || c = '\t' || c = '\n' || c = '\r' || c = '\x0b' || c = '\x0c'

/-- Model of Python str.strip with no arguments. -/
def pyStrip (l : List Char) : List Char :=
  ((l.dropWhile pySpace).reverse.dropWhile pySpace).reverse

/-- Whether the first list occurs at the head of the second. -/
def leadsWith : List Char → List Char → Bool
  | [], _ => true
  | _ :: _, [] => false
  | p :: ps, c :: cs => p = c && leadsWith ps cs

/-- Fuel-indexed worker for removeAll; every step consumes at least one
character, so fuel equal to the list length always suffices. -/
def removeAllGo (pat : List Char) : Nat → List Char → List Char
  | _, [] => []
  | 0, l => l
  | fuel + 1, c :: cs =>
    if !pat.isEmpty && leadsWith pat (c :: cs) then
      removeAllGo pat fuel (List.drop pat.length (c :: cs))
    else
      c :: removeAllGo pat fuel cs

/-- Model of Python str.replace with an empty replacement: removes every
non-overlapping occurrence of the pattern, scanning left to right. -/
def removeAll (pat : List Char) (l : List Char) : List Char :=
  removeAllGo pat l.length l

/-- Index of the first occurrence of a character (Python str.index). -/
def charIdx (c : Char) : List Char → Option Nat
  | [] => none
  | x :: xs => if x = c then some 0 else (charIdx c xs).map (· + 1)

/-- Index of the last occurrence of a character (Python str.rindex). -/
def lastCharIdx (c : Char) (l : List Char) : Option Nat :=
  (charIdx c l.reverse).map (fun i => l.length - 1 - i)

/-- Model of the Python slice l[start:stop] for nonnegative bounds. -/
def sliceList (start stop : Nat) (l : List Char) : List Char :=
  (l.take stop).drop start

/-- Index of the first occurrence of a substring (Python str.find on success). -/
def findSubIdx (pat : List Char) : List Char → Option Nat
  | [] => if pat = [] then some 0 else none
  | c :: cs => if leadsWith pat (c :: cs) then some 0 else (findSubIdx pat cs).map (· + 1)

/-- Model of Python str.find(sub, start): search from a given index. -/
def findSubFrom (pat : List Char) (l : List Char) (start : Nat) : Option Nat :=
  (findSubIdx pat (l.drop start)).map (· + start)

/-- Whether a substring occurs (Python membership test on str). -/
def containsSub (pat : List Char) (l : List Char) : Bool :=
  (findSubIdx pat l).isSome

/-- JSON values as produced by json.loads, with numbers restricted to
integers (see the module comment). -/
inductive Json where
  | str (s : String)
  | num (n : Int)
  | bool (b : Bool)
  | null
  | arr (elems : List Json)
  | obj (members : List (String × Json))

/-- Python dict lookup on the key-value list representation. -/
def objLookup : List (String × Json) → String → Option Json
  | [], _ => none
  | (k, v) :: rest, key => if k = key then some v else objLookup rest key

/-- Python dict assignment d[k] = v: overwrite in place if present,
else append at the end (CPython insertion-order semantics). -/
def objInsert : List (String × Json) → String → Json → List (String × Json)
  | [], key, v => [(key, v)]
  | (k, w) :: rest, key, v =>
    if k = key then (key, v) :: rest else (k, w) :: objInsert rest key v

/-- Python truthiness of a JSON value. -/
def jtruthy : Json → Bool
  | Json.str s => s ≠ ""
  | Json.num n => n ≠ 0
  | Json.bool b => b
  | Json.null => false
  | Json.arr xs => !xs.isEmpty
  | Json.obj kvs => !kvs.isEmpty

/-- String-literal body of a JSON document: consumes characters after the
opening quote up to the matching unescaped quote, decoding escapes. -/
def parseJStrAux : List Char → Option (List Char × List Char)
  | [] => none
  | '"' :: rest => some ([], rest)
  | '\\' :: rest =>
    match rest with
    | [] => none
    | e :: rest2 =>
      let decoded : Option Char :=
        if e = '"' then some '"'
        else if e = '\\' then some '\\'
        else if e = '/' then some '/'
        else if e = 'n' then some '\n'
        else if e = 't' then some '\t'
        else if e = 'r' then some '\r'
        else if e = 'b' then some '\x08'
        else if e = 'f' then some '\x0c'
        else none
      match decoded with
      | some c => (parseJStrAux rest2).map (fun p => (c :: p.1, p.2))
      | none => none
  | c :: rest =>
    if c.toNat < 32 then none
    else (parseJStrAux rest).map (fun p => (c :: p.1, p.2))

/-- Digits consumed greedily into a numeric value. -/
def digitsValue (l : List Char) : Nat :=
  l.foldl (fun a c => a * 10 + (c.toNat - 48)) 0

/-- JSON number token (integer forms only; a following dot or exponent
marker makes the decoder fail, see the module comment). -/
def parseJNum (l : List Char) : Option (Json × List Char) :=
  let (neg, l1) := match l with
    | '-' :: rest => (true, rest)
    | _ => (false, l)
  let digits := l1.takeWhile Char.isDigit
  let rest := l1.dropWhile Char.isDigit
  if digits.isEmpty then none
  else
    match rest with
    | '.' :: _ => none
    | 'e' :: _ => none
    | 'E' :: _ => none
    | _ =>
      let v : Int := Int.ofNat (digitsValue digits)
      some (Json.num (if neg then -v else v), rest)

/-- Decoder modes: a whole value, the members of an object, or the elements
of an array (with their accumulators). -/
inductive PMode where
  | val
  | members (acc : List (String × Json))
  | elems (acc : List Json)

/-- Fuel-indexed JSON decoder (model of json.loads internals); written as a
single structurally recursive function over the fuel so that concrete
documents evaluate definitionally. -/
def parseJ : Nat → PMode → List Char → Option (Json × List Char)
  | 0, _, _ => none
  | fuel + 1, PMode.val, cs =>
    let cs1 := cs.dropWhile pySpace
    if leadsWith "true".data cs1 then some (Json.bool true, cs1.drop 4)
    else if leadsWith "false".data cs1 then some (Json.bool false, cs1.drop 5)
    else if leadsWith "null".data cs1 then some (Json.null, cs1.drop 4)
    else
      match cs1 with
      | '\x7b' :: rest =>
        let rest1 := rest.dropWhile pySpace
        match rest1 with
        | '\x7d' :: rest2 => some (Json.obj [], rest2)
        | _ => parseJ fuel (PMode.members []) rest1
      | '[' :: rest =>
        let rest1 := rest.dropWhile pySpace
        match rest1 with
        | ']' :: rest2 => some (Json.arr [], rest2)
        | _ => parseJ fuel (PMode.elems []) rest1
      | '"' :: rest => (parseJStrAux rest).map (fun p => (Json.str (String.mk p.1), p.2))
      | _ => parseJNum cs1
  | fuel + 1, PMode.members acc, cs =>
    match cs.dropWhile pySpace with
    | '"' :: rest =>
      match parseJStrAux rest with
      | none => none
      | some (key, rest1) =>
        match rest1.dropWhile pySpace with
        | ':' :: rest2 =>
          match parseJ fuel PMode.val rest2 with
          | none => none
          | some (v, rest3) =>
            let acc1 := objInsert acc (String.mk key) v
            match rest3.dropWhile pySpace with
            | ',' :: rest4 => parseJ fuel (PMode.members acc1) rest4
            | '\x7d' :: rest4 => some (Json.obj acc1, rest4)
            | _ => none
        | _ => none
    | _ => none
  | fuel + 1, PMode.elems acc, cs =>
    match parseJ fuel PMode.val cs with
    | none => none
    | some (v, rest) =>
      let acc1 := acc ++ [v]
      match rest.dropWhile pySpace with
      | ',' :: rest1 => parseJ fuel (PMode.elems acc1) rest1
      | ']' :: rest1 => some (Json.arr acc1, rest1)
      | _ => none

/-- Model of json.loads: decode one value, allowing only surrounding
whitespace. -/
def json_loads (l : List Char) : Option Json :=
  match parseJ (2 * l.length + 8) PMode.val l with
  | some (v, rest) => if (rest.dropWhile pySpace).isEmpty then some v else none
  | none => none

/-! ## GeminiTranslator response parsing (translator.py lines 478-583) -/

/-- Error marker returned when processing fails (translator.py line 224). -/
def unavailMarker : String := "[Translation unavailable]"

/-- Marker returned when both attempts are safety-blocked (line 176). -/
def filteredMarker : String := "[Content filtered for safety]"

/-- Marker used for each language on a JSON decode failure (line 546). -/
def jsonErrMarker : String := "[Translation unavailable - JSON error]"

/-- Marker used when a requested language is missing or empty (line 526). -/
def schemaMarker : String := "[Translation error - schema mismatch]"

/-- Result dictionary of _parse_response and process_audio_segment:
both fields hold JSON values, matching the dynamically typed Python dict. -/
structure TResult where
  transcription : Json
  translations : Json

/-- Markdown cleanup at the start of _parse_response (lines 486-487). -/
def cleanResponse (l : List Char) : List Char :=
  pyStrip (removeAll "```".data (removeAll "```json".data (pyStrip l)))

/-- JSON extraction and truncation repair (lines 491-512): slice between the
first opening and last closing brace; when no closing brace exists, slice
from the first opening brace and append the missing closing braces counted
by comparing open and close brace totals. -/
def extractJson (c : List Char) : List Char :=
  match charIdx '\x7b' c with
  | none => c
  | some start =>
    match lastCharIdx '\x7d' c with
    | some e => sliceList start (e + 1) c
    | none =>
      let t := c.drop start
      let missing := t.count '\x7b' - t.count '\x7d'
      if 0 < missing then t ++ List.replicate missing '\x7d' else t

/-- Scan for the first unescaped closing quote; prev is the character just
before the current position (model of the while loop in lines 573-579). -/
def scanCloseQuote : Char → List Char → Nat → Option Nat
  | _, [], _ => none
  | prev, c :: cs, i =>
    if c = '"' && prev ≠ '\\' then some i else scanCloseQuote c cs (i + 1)

/-- Model of _extract_transcription_fallback (lines 561-583). -/
def extract_transcription_fallback (l : List Char) : String :=
  let tKey := "\"transcription\"".data
  match findSubIdx tKey l with
  | some start =>
    match findSubFrom ['"'] l (start + tKey.length + 1) with
    | some qs =>
      match scanCloseQuote '"' (l.drop (qs + 1)) (qs + 1) with
      | some qe => String.mk (sliceList (qs + 1) qe l)
      | none => unavailMarker
    | none => unavailMarker
  | none => unavailMarker

/-- Validation loop of _parse_response (lines 523-526): every expected code
that is absent or falsy is overwritten with the schema-mismatch marker. -/
def fillMissing (expected : List String) (d : List (String × Json)) : List (String × Json) :=
  expected.foldl
    (fun d lang =>
      match objLookup d lang with
      | some v => if jtruthy v then d else objInsert d lang (Json.str schemaMarker)
      | none => objInsert d lang (Json.str schemaMarker))
    d

/-- Python dict comprehension assigning one marker to every language. -/
def markerDict (langs : List String) (m : String) : List (String × Json) :=
  langs.foldl (fun d lang => objInsert d lang (Json.str m)) []

/-- Model of GeminiTranslator._parse_response (lines 478-559).  The branch
for a decoded document that is not an object, or whose translations field is
not an object while expected languages exist, reproduces the AttributeError
or TypeError raised there in Python and caught by the generic handler at
line 549, which returns empty transcription and translations. -/
def parse_response (response_text : String) (expected : List String) : TResult :=
  let cleaned := extractJson (cleanResponse response_text.data)
  match json_loads cleaned with
  | some (Json.obj kvs) =>
    let transcription := (objLookup kvs "transcription").getD (Json.str "")
    let translations := (objLookup kvs "translations").getD (Json.obj [])
    match translations with
    | Json.obj d =>
      { transcription := transcription, translations := Json.obj (fillMissing expected d) }
    | other =>
      if expected.isEmpty then { transcription := transcription, translations := other }
      else { transcription := Json.str "", translations := Json.obj [] }
  | some _ => { transcription := Json.str "", translations := Json.obj [] }
  | none =>
    { transcription := Json.str (extract_transcription_fallback response_text.data),
      translations := Json.obj (markerDict expected jsonErrMarker) }


/-! ## GeminiTranslator prompts and language names (translator.py 297-476, 585-654) -/

/-- Language code to display-name table of _get_language_names (585-654). -/
def languageNamesTable : List (String × String) :=
  [("en", "English"), ("es", "Spanish"), ("fr", "French"), ("de", "German"),
   ("nl", "Dutch"), ("ar", "Arabic"), ("zh", "Chinese"), ("ja", "Japanese"),
   ("ko", "Korean"), ("pt", "Portuguese"), ("ru", "Russian"), ("tr", "Turkish"),
   ("it", "Italian"), ("pl", "Polish"), ("sv", "Swedish"), ("no", "Norwegian"),
   ("da", "Danish"), ("fi", "Finnish"), ("cs", "Czech"), ("hu", "Hungarian"),
   ("ro", "Romanian"), ("bg", "Bulgarian"), ("hr", "Croatian"), ("sk", "Slovakian"),
   ("sl", "Slovenian"), ("et", "Estonian"), ("lv", "Latvian"), ("lt", "Lithuanian"),
   ("el", "Greek"), ("he", "Hebrew"), ("hi", "Hindi"), ("bn", "Bengali"),
   ("ur", "Urdu"), ("fa", "Persian"), ("th", "Thai"), ("vi", "Vietnamese"),
   ("id", "Indonesian"), ("ms", "Malay"), ("tl", "Tagalog"), ("sw", "Swahili"),
   ("ta", "Tamil"), ("te", "Telugu"), ("mr", "Marathi"), ("uk", "Ukrainian"),
   ("be", "Belarusian"), ("ca", "Catalan"), ("gl", "Galician"), ("eu", "Basque"),
   ("cy", "Welsh"), ("ga", "Irish"), ("yue", "Cantonese"), ("ba", "Bashkir"),
   ("eo", "Esperanto"), ("ia", "Interlingua"), ("mt", "Maltese"), ("mn", "Mongolian"),
   ("ug", "Uyghur"), ("zh-CN", "Simplified Chinese"), ("zh-TW", "Traditional Chinese"),
   ("zh-HK", "Hong Kong Chinese")]

/-- Association-list lookup used for the language tables. -/
def strLookup : List (String × String) → String → Option String
  | [], _ => none
  | (k, v) :: rest, key => if k = key then some v else strLookup rest key

/-- Model of names.get(code, code.upper()) in _get_language_names. -/
def getLanguageName (code : String) : String :=
  match strLookup languageNamesTable code with
  | some n => n
  | none => code.toUpper

/-- Model of GeminiTranslator._get_language_names. -/
def getLanguageNames (codes : List String) : List String :=
  codes.map getLanguageName

/-- Example translations-object lines of the custom-prompt block (line 367). -/
def customExampleEntries (targets : List String) : String :=
  String.intercalate ", " (targets.map (fun lang => "\"" ++ lang ++ "\": \"translation text\""))

/-- Default-format block appended when the custom prompt lacks JSON (374-384). -/
def customJsonBlock (targets : List String) : String :=
  "\n\nReturn ONLY a JSON object with this exact format (no markdown, no code blocks):\n\x7b\n  \"transcription\": \"Original transcribed text here\",\n  \"translations\": \x7b\n    "
  ++ String.intercalate ", "
       (targets.map (fun lang => "\"" ++ lang ++ "\": \"Translation in " ++ getLanguageName lang ++ "\""))
  ++ "\n  \x7d\n\x7d\n\nJSON:"

/-- Custom-prompt branch of _build_prompt (lines 342-387). -/
def buildCustomPrompt (custom : String) (source : String) (targets : List String) : String :=
  let names := String.intercalate ", " (getLanguageNames targets)
  let base := (custom.replace "\x7bsource_lang\x7d" source).replace "\x7btarget_lang\x7d" names
  let withCodes := base
    ++ "\n\nIMPORTANT: Use these EXACT language codes as keys in your translations object:\n"
    ++ String.intercalate ", " targets
    ++ "\n\nYour response MUST use these exact keys. Example format:\n\x7b\n  \"transcription\": \"original text\",\n  \"translations\": \x7b\n    "
    ++ customExampleEntries targets
    ++ "\n  \x7d\n\x7d\n"
  if containsSub "JSON".data withCodes.data then withCodes
  else withCodes ++ customJsonBlock targets

/-- Default full prompt with targets present (lines 400-423). -/
def defaultFullPrompt (source : String) (targets : List String) : String :=
  "You are an audio transcription and translation system.\n\nTASK:\n1. Transcribe the audio from "
  ++ source ++ " to text\n2. Translate the transcription to these languages: "
  ++ String.intercalate ", " (getLanguageNames targets)
  ++ "\n\nReturn ONLY a JSON object with this exact format (no markdown, no code blocks):\n\x7b\n  \"transcription\": \"Original transcribed text here\",\n  \"translations\": \x7b\n    \"es\": \"Spanish translation\",\n    \"fr\": \"French translation\"\n  \x7d\n\x7d\n\nREQUIREMENTS:\n1. Return ONLY the JSON object, nothing else\n2. Include transcription field (original text)\n3. Include translations for ALL these language codes: "
  ++ String.intercalate ", " targets
  ++ "\n4. Keep translations accurate and natural\n5. Preserve the meaning and tone of the original\n6. Be concise but complete\n\nJSON:"

/-- Default transcription-only prompt (lines 426-433). -/
def defaultTranscribePrompt (source : String) : String :=
  "Transcribe this audio from " ++ source
  ++ " to text.\n\nReturn ONLY a JSON object:\n\x7b\n  \"transcription\": \"Transcribed text here\"\n\x7d\n\nJSON:"

/-- Model of GeminiTranslator._build_prompt (lines 338-433).  The condition
on the custom prompt mirrors Python truthiness: present and nonempty. -/
def build_prompt (custom : Option String) (source : String) (targets : List String) : String :=
  match custom with
  | some p =>
    if p ≠ "" && !targets.isEmpty then buildCustomPrompt p source targets
    else if !targets.isEmpty then defaultFullPrompt source targets
    else defaultTranscribePrompt source
  | none =>
    if !targets.isEmpty then defaultFullPrompt source targets
    else defaultTranscribePrompt source

/-- Simple-prompt entries for the translations object (lines 449, 466). -/
def simpleExampleEntries (targets : List String) : String :=
  String.intercalate ", " (targets.map (fun lang => "\"" ++ lang ++ "\": \"translation\""))

/-- Model of GeminiTranslator._build_simple_prompt (lines 435-476). -/
def build_simple_prompt (custom : Option String) (source : String) (targets : List String) : String :=
  let hasCustom := match custom with
    | some p => p ≠ ""
    | none => false
  if hasCustom && !targets.isEmpty then
    "Transcribe " ++ source ++ " audio and translate to "
    ++ String.intercalate ", " (getLanguageNames targets)
    ++ ".\n\nReturn JSON format:\n\x7b\n  \"transcription\": \"original text\",\n  \"translations\": \x7b\n    "
    ++ simpleExampleEntries targets
    ++ "\n  \x7d\n\x7d"
  else if !targets.isEmpty then
    "Transcribe and translate this audio.\n\nSource: " ++ source
    ++ "\nTarget: " ++ String.intercalate ", " (getLanguageNames targets)
    ++ "\n\nReturn JSON:\n\x7b\n  \"transcription\": \"text\",\n  \"translations\": \x7b\n    "
    ++ simpleExampleEntries targets
    ++ "\n  \x7d\n\x7d"
  else
    "Transcribe audio to text.\n\nReturn JSON:\n\x7b\n  \"transcription\": \"text\"\n\x7d"

/-! ## GeminiTranslator.process_audio_segment (translator.py 78-226) -/

/-- Outcome of one generate_content call, as observed by the code: a
safety-filter block (no parts, finish reason SAFETY), an exception of the
classes caught by the inner retry handler at line 197 (ValueError from the
no-valid-response branch, ConnectionError, TimeoutError, OSError), any other
exception (propagating to the outer handler at line 218), or a response
text. -/
inductive AttemptOutcome where
  | blocked
  | errRetryable (msg : String)
  | errFatal (msg : String)
  | ok (text : String)

/-- Result returned from the outer exception handler (lines 222-226). -/
def unavailResult (targets : List String) : TResult :=
  { transcription := Json.str unavailMarker,
    translations := Json.obj (markerDict targets unavailMarker) }

/-- Result returned when both attempts are safety-blocked (lines 174-178). -/
def filteredResult (targets : List String) : TResult :=
  { transcription := Json.str filteredMarker,
    translations := Json.obj (markerDict targets filteredMarker) }

/-- Whether the logging expression at lines 210-214 evaluates without
raising: len of the transcription value requires a string, list or dict, and
the truncation slice plus string concatenation raises for a list or dict
longer than 50. -/
def transcriptionDisplayOk : Json → Bool
  | Json.str _ => true
  | Json.arr xs => decide (xs.length ≤ 50)
  | Json.obj kvs => decide (kvs.length ≤ 50)
  | _ => false

/-- Success-path epilogue of process_audio_segment (lines 205-216): the
history update at line 208 calls translations.items(), raising for a
non-dict value, and the log call at lines 210-214 raises for transcription
values without len or slice support; either exception reaches the outer
handler, which returns the unavailable-marker result. -/
def postProcess (targets : List String) (r : TResult) : TResult :=
  match r.translations with
  | Json.obj _ => if transcriptionDisplayOk r.transcription then r else unavailResult targets
  | _ => unavailResult targets

/-- Model of GeminiTranslator.process_audio_segment (lines 78-226), with the
model service abstracted as a function from attempt index and prompt text to
an outcome.  Attempt 0 sends the prompt from _build_prompt; the retry at
attempt 1 (reached when attempt 0 is blocked or raises a retryable error)
rebuilds the prompt with _build_simple_prompt (lines 136-138).  A block at
attempt 1 returns the filtered-content result; a retryable error at attempt
1 is re-raised (line 203) and, like any other exception, produces the
unavailable-marker result in the outer handler. -/
def process_audio_segment (custom : Option String) (source : String)
    (wavNonempty : Bool) (targets : List String)
    (respond : Nat → String → AttemptOutcome) : TResult :=
  if wavNonempty then
    match respond 0 (build_prompt custom source targets) with
    | AttemptOutcome.ok text => postProcess targets (parse_response text targets)
    | AttemptOutcome.errFatal _ => unavailResult targets
    | AttemptOutcome.blocked =>
      match respond 1 (build_simple_prompt custom source targets) with
      | AttemptOutcome.ok text => postProcess targets (parse_response text targets)
      | AttemptOutcome.blocked => filteredResult targets
      | AttemptOutcome.errRetryable _ => unavailResult targets
      | AttemptOutcome.errFatal _ => unavailResult targets
    | AttemptOutcome.errRetryable _ =>
      match respond 1 (build_simple_prompt custom source targets) with
      | AttemptOutcome.ok text => postProcess targets (parse_response text targets)
      | AttemptOutcome.blocked => filteredResult targets
      | AttemptOutcome.errRetryable _ => unavailResult targets
      | AttemptOutcome.errFatal _ => unavailResult targets
  else
    { transcription := Json.str "", translations := Json.obj [] }

/-! ## Conversation history (translator.py 63-66, 263-288) -/

/-- One history entry: a role and a text content. -/
structure HistoryMsg where
  role : String
  content : String
deriving DecidableEq

/-- History entry for the transcription (lines 275-278). -/
def mkUserMsg (transcription : String) : HistoryMsg :=
  { role := "user", content := transcription }

/-- Comma-joined translations text (line 282). -/
def joinTranslations (translations : List (String × String)) : String :=
  String.intercalate ", " (translations.map (fun p => p.1 ++ ": " ++ p.2))

/-- History entry for the translations (lines 283-286). -/
def mkModelMsg (translations : List (String × String)) : HistoryMsg :=
  { role := "model", content := joinTranslations translations }

/-- Model of collections.deque(maxlen) append: push on the right, dropping
from the left whatever exceeds the bound. -/
def dequeAppend (maxlen : Nat) (h : List HistoryMsg) (m : HistoryMsg) : List HistoryMsg :=
  if maxlen < (h ++ [m]).length then (h ++ [m]).drop ((h ++ [m]).length - maxlen)
  else h ++ [m]

/-- Model of GeminiTranslator._update_history (lines 263-288): when context
is enabled, append the transcription entry then the translations entry to
the bounded deque. -/
def update_history (contextEnabled : Bool) (maxlen : Nat) (h : List HistoryMsg)
    (transcription : String) (translations : List (String × String)) : List HistoryMsg :=
  if contextEnabled then
    dequeAppend maxlen (dequeAppend maxlen h (mkUserMsg transcription)) (mkModelMsg translations)
  else h

/-- Configured pair limit from GeminiTranslator.__init__ (line 65). -/
def max_context_segments : Nat := 1

/-- Deque bound from GeminiTranslator.__init__ (line 66): one pair is two
messages. -/
def historyMaxlen (pairLimit : Nat) : Nat := 2 * pairLimit

/-! ## AudioProcessor (audio_processor.py) -/

/-- Language code to name table of AudioProcessor._get_language_name
(lines 278-295). -/
def apLanguageNamesTable : List (String × String) :=
  [("en", "English"), ("es", "Spanish"), ("fr", "French"), ("de", "German"),
   ("nl", "Dutch"), ("ar", "Arabic"), ("zh", "Chinese"), ("ja", "Japanese"),
   ("ko", "Korean"), ("pt", "Portuguese"), ("ru", "Russian"), ("hi", "Hindi"),
   ("it", "Italian")]

/-- Model of AudioProcessor._get_language_name. -/
def apLanguageName (code : String) : String :=
  match strLookup apLanguageNamesTable code with
  | some n => n
  | none => code.toUpper

/-- Mutable per-session state of AudioProcessor relevant to the claims:
the active target-language set and the tracked source language. -/
structure APState where
  active_languages : Finset String
  source_language : String
  source_language_code : String
deriving DecidableEq

/-- Initial AudioProcessor state (lines 34, 39-40). -/
def apInit : APState :=
  { active_languages := ∅, source_language := "English", source_language_code := "en" }

/-- Model of AudioProcessor.add_language (lines 246-253). -/
def add_language (s : APState) (code : String) : APState :=
  if code ∈ s.active_languages then s
  else { s with active_languages := insert code s.active_languages }

/-- Model of AudioProcessor.remove_language (lines 255-261). -/
def remove_language (s : APState) (code : String) : APState :=
  if code ∈ s.active_languages then
    { s with active_languages := s.active_languages.erase code }
  else s

/-- Model of AudioProcessor.set_source_language (lines 267-276). -/
def set_source_language (s : APState) (code : String) : APState :=
  { s with source_language_code := code, source_language := apLanguageName code }

/-- One buffered VAD audio frame: its byte length and its sample rate. -/
structure AudioFrame where
  dataByteLen : Nat
  sample_rate : Nat
deriving DecidableEq

/-- Speech segment derived on an end-of-speech event. -/
structure SpeechSegment where
  sample_rate : Nat
  total_samples : Nat
  duration : ℚ
deriving DecidableEq

/-- Model of the end-of-speech branch of AudioProcessor.process_track
(lines 90-109): an empty frame buffer emits nothing; otherwise the sample
rate comes from the first frame, each frame contributes len(frame.data)//2
samples, and the duration is total samples divided by the sample rate. -/
def segment_of_frames : List AudioFrame → Option SpeechSegment
  | [] => none
  | f :: fs =>
    let rate := f.sample_rate
    let total := ((f :: fs).map (fun fr => fr.dataByteLen / 2)).sum
    some { sample_rate := rate, total_samples := total,
           duration := (total : ℚ) / (rate : ℚ) }

/-- Transport publish operation (room.local_participant
.publish_transcription at line 201), which may fail. -/
def roomPublish (transportFails : Bool) : Except String Unit :=
  if transportFails then Except.error "publish failed" else Except.ok ()

/-- Model of AudioProcessor.publish_transcription (lines 183-206): the
try-except around the transport call catches and logs every error, so the
call always returns normally. -/
def publish_transcription_res (transportFails : Bool) : Except String Unit :=
  match roomPublish transportFails with
  | Except.error _ => Except.ok ()
  | Except.ok _ => Except.ok ()

/-- Per-translation publish loop of translate_and_publish (lines 172-176):
returns the publish attempts made, in order, paired with the exception that
would abort the loop if the publish call could raise.  The call index feeds
the transport-failure oracle. -/
def publishLoop (fails : Nat → Bool) : Nat → List (String × Json) → List (String × Json) × Option String
  | _, [] => ([], none)
  | i, e :: es =>
    match publish_transcription_res (fails i) with
    | Except.error msg => ([e], some msg)
    | Except.ok _ =>
      let r := publishLoop fails (i + 1) es
      (e :: r.1, r.2)

/-- Model of AudioProcessor.translate_and_publish after the translator
result is available (lines 157-181), returning the ordered list of publish
attempts as (language, text) pairs.  The transcription, when the room is set
and the text truthy, is published first under the source language code
(lines 162-168); afterwards each translations entry is published under its
own code (lines 170-178).  Iterating items() of a non-dict translations
value raises and is caught by the handler at line 180, producing no further
attempts. -/
def translate_and_publish (hasRoom : Bool) (sourceCode : String) (r : TResult)
    (fails : Nat → Bool) : List (String × Json) :=
  let first : List (String × Json) :=
    if hasRoom && jtruthy r.transcription then [(sourceCode, r.transcription)] else []
  let rest : List (String × Json) :=
    match r.translations with
    | Json.obj d =>
      if hasRoom && jtruthy (Json.obj d) then (publishLoop fails first.length d).1
      else []
    | _ => []
  first ++ rest

/-! ## Agent room-event handler (agent.py 143-168) -/

/-- Model of the on_attributes_changed handler: a speaking_language entry
updates the source language; a captions_language entry adds that language
to the active set.  No handler removes a language. -/
def on_attributes_changed (changed : List (String × String)) (s : APState) : APState :=
  let s1 := match strLookup changed "speaking_language" with
    | some v => set_source_language s v
    | none => s
  match strLookup changed "captions_language" with
  | some v => add_language s1 v
  | none => s1

/-! ## Dictionary lemmas -/

/-- Lookup after insertion at the same key. -/
theorem objLookup_objInsert_self (d : List (String × Json)) (k : String) (v : Json) :
    objLookup (objInsert d k v) k = some v := by
  induction d with
  | nil => simp [objInsert, objLookup]
  | cons p rest ih =>
    obtain ⟨a, w⟩ := p
    by_cases h : a = k
    · simp [objInsert, h, objLookup]
    · simp [objInsert, h, objLookup, ih]

/-- Lookup after insertion at a different key. -/
theorem objLookup_objInsert_ne (d : List (String × Json)) (k : String) (v : Json)
    (l : String) (h : k ≠ l) :
    objLookup (objInsert d k v) l = objLookup d l := by
  induction d with
  | nil => simp [objInsert, objLookup, h]
  | cons p rest ih =>
    obtain ⟨a, w⟩ := p
    by_cases ha : a = k
    · subst ha
      simp [objInsert, objLookup, h]
    · by_cases hl : a = l
      · subst hl
        simp [objInsert, ha, objLookup]
      · simp [objInsert, ha, objLookup, hl, ih]

/-- The validation loop of _parse_response keeps every key that already
holds a truthy value truthy. -/
theorem fillMissing_pres (expected : List String) :
    ∀ (d : List (String × Json)) (l : String) (v : Json),
      objLookup d l = some v → jtruthy v = true →
      ∃ w, objLookup (fillMissing expected d) l = some w ∧ jtruthy w = true := by
  induction expected with
  | nil =>
    intro d l v h ht
    exact ⟨v, h, ht⟩
  | cons k rest ih =>
    intro d l v h ht
    simp only [fillMissing, List.foldl_cons] at *
    rcases hk : objLookup d k with _ | v2
    · by_cases hkl : k = l
      · subst hkl
        rw [h] at hk
        exact absurd hk (by simp)
      · exact ih (objInsert d k (Json.str schemaMarker)) l v
          (by rw [objLookup_objInsert_ne d k _ l hkl]; exact h) ht
    · by_cases htr : jtruthy v2
      · simp only [hk, htr, if_true]
        exact ih d l v h ht
      · simp only [hk, htr, if_false, Bool.false_eq_true]
        by_cases hkl : k = l
        · subst hkl
          rw [h] at hk
          injection hk with hv
          subst hv
          exact absurd ht (by simp [htr])
        · exact ih (objInsert d k (Json.str schemaMarker)) l v
            (by rw [objLookup_objInsert_ne d k _ l hkl]; exact h) ht

/-- After the validation loop, every expected language maps to a truthy
value (present values are kept; absent or falsy ones become the marker). -/
theorem fillMissing_good (expected : List String) :
    ∀ (d : List (String × Json)) (l : String), l ∈ expected →
      ∃ w, objLookup (fillMissing expected d) l = some w ∧ jtruthy w = true := by
  induction expected with
  | nil =>
    intro d l hl
    exact absurd hl (List.not_mem_nil l)
  | cons k rest ih =>
    intro d l hl
    simp only [fillMissing, List.foldl_cons]
    rcases List.mem_cons.mp hl with hlk | hlr
    · subst hlk
      rcases hk : objLookup d l with _ | v2
      · simp only [hk]
        exact fillMissing_pres rest _ l (Json.str schemaMarker)
          (objLookup_objInsert_self d l _) (by decide)
      · by_cases htr : jtruthy v2
        · simp only [hk, htr, if_true]
          exact fillMissing_pres rest d l v2 hk htr
        · simp only [hk, htr, if_false, Bool.false_eq_true]
          exact fillMissing_pres rest _ l (Json.str schemaMarker)
            (objLookup_objInsert_self d l _) (by decide)
    · exact ih _ l hlr

/-- Folding constant-marker insertions makes every visited key, and every
key already holding the marker, map to the marker. -/
theorem foldl_markers_mem (m : String) (langs : List String) :
    ∀ (d : List (String × Json)) (l : String),
      l ∈ langs ∨ objLookup d l = some (Json.str m) →
      objLookup (List.foldl (fun d lang => objInsert d lang (Json.str m)) d langs) l
        = some (Json.str m) := by
  induction langs with
  | nil =>
    intro d l h
    rcases h with h | h
    · exact absurd h (List.not_mem_nil l)
    · exact h
  | cons k rest ih =>
    intro d l h
    simp only [List.foldl_cons]
    rcases h with h | h
    · rcases List.mem_cons.mp h with hlk | hlr
      · refine ih _ l (Or.inr ?_)
        rw [hlk]
        exact objLookup_objInsert_self d k _
      · exact ih _ l (Or.inl hlr)
    · by_cases hkl : k = l
      · refine ih _ l (Or.inr ?_)
        rw [← hkl]
        exact objLookup_objInsert_self d k _
      · exact ih _ l (Or.inr (by rw [objLookup_objInsert_ne d k _ l hkl]; exact h))

/-- Every language of the dict comprehension maps to the marker. -/
theorem markerDict_lookup (langs : List String) (m : String) (l : String)
    (hl : l ∈ langs) :
    objLookup (markerDict langs m) l = some (Json.str m) :=
  foldl_markers_mem m langs [] l (Or.inl hl)

/-! ## Claim C1 -/

/-- Claim C1 (amended). For every model response text and non-empty list of
requested languages, the translations mapping of _parse_response either
covers every requested code with a truthy (non-empty) value — the decoded
value when present, the schema-mismatch or JSON-error marker otherwise —
or, when the decoded document is not a JSON object or its translations
field is not an object, degrades to the empty result with an empty
mapping.  Extra keys returned by the model are passed through, so the key
set is not always exactly the requested set (see the counterexample). -/
theorem C1_translations_key_cover (text : String) (expected : List String)
    (hne : expected ≠ []) :
    (parse_response text expected
       = { transcription := Json.str "", translations := Json.obj [] }) ∨
    ∃ d, (parse_response text expected).translations = Json.obj d ∧
      ∀ lang ∈ expected, ∃ v, objLookup d lang = some v ∧ jtruthy v = true := by
  have hemp : expected.isEmpty = false := by
    cases expected with
    | nil => exact absurd rfl hne
    | cons a as => simp
  simp only [parse_response]
  split
  · split
    · next d heq =>
        right
        exact ⟨fillMissing expected d, rfl, fun lang hl => fillMissing_good expected d lang hl⟩
    · left
      simp [hemp]
  · left
    rfl
  · right
    refine ⟨markerDict expected jsonErrMarker, rfl, fun lang hl => ?_⟩
    exact ⟨Json.str jsonErrMarker, markerDict_lookup expected jsonErrMarker lang hl, by decide⟩

/-- Claim C1 counterexample: with only "es" requested, a response carrying
an extra "de" entry is returned with both keys — the key set strictly
exceeds the requested languages, refuting the claim as stated. -/
theorem C1_translations_key_cover_cx :
    (parse_response "\x7b\"translations\": \x7b\"es\": \"x\", \"de\": \"y\"\x7d\x7d" ["es"]).translations
      = Json.obj [("es", Json.str "x"), ("de", Json.str "y")]
    ∧ ("de" ∈ (["es"] : List String)) = False := by
  exact ⟨rfl, by simp⟩

/-- Claim C1 witness: the amended theorem applied at a concrete input. -/
theorem C1_translations_key_cover_witness :
    (["es"] : List String) ≠ [] ∧
    ((parse_response "\x7b\"translations\": \x7b\"es\": \"hola\"\x7d\x7d" ["es"]
       = { transcription := Json.str "", translations := Json.obj [] }) ∨
     ∃ d, (parse_response "\x7b\"translations\": \x7b\"es\": \"hola\"\x7d\x7d" ["es"]).translations
         = Json.obj d ∧
       ∀ lang ∈ (["es"] : List String), ∃ v, objLookup d lang = some v ∧ jtruthy v = true) :=
  ⟨by decide, C1_translations_key_cover "\x7b\"translations\": \x7b\"es\": \"hola\"\x7d\x7d" ["es"] (by decide)⟩

/-! ## Claim C2 -/

/-- Shape of the success-path epilogue: translations always end up a JSON
object; the transcription is a string unless the parsed result is passed
through unchanged carrying a small array or object transcription. -/
theorem postProcess_shape (targets : List String) (r : TResult) :
    (∃ d, (postProcess targets r).translations = Json.obj d) ∧
    ((∃ s, (postProcess targets r).transcription = Json.str s) ∨
     (postProcess targets r = r ∧
       ((∃ xs, r.transcription = Json.arr xs ∧ xs.length ≤ 50) ∨
        (∃ kvs, r.transcription = Json.obj kvs ∧ kvs.length ≤ 50)))) := by
  obtain ⟨t, tr⟩ := r
  cases tr with
  | obj d =>
    cases t with
    | str s => exact ⟨⟨d, rfl⟩, Or.inl ⟨s, rfl⟩⟩
    | arr xs =>
      by_cases hlen : xs.length ≤ 50
      · refine ⟨⟨d, ?_⟩, Or.inr ⟨?_, Or.inl ⟨xs, rfl, hlen⟩⟩⟩ <;>
          simp [postProcess, transcriptionDisplayOk, hlen]
      · refine ⟨⟨markerDict targets unavailMarker, ?_⟩, Or.inl ⟨unavailMarker, ?_⟩⟩ <;>
          simp [postProcess, transcriptionDisplayOk, hlen, unavailResult]
    | obj kvs =>
      by_cases hlen : kvs.length ≤ 50
      · refine ⟨⟨d, ?_⟩, Or.inr ⟨?_, Or.inr ⟨kvs, rfl, hlen⟩⟩⟩ <;>
          simp [postProcess, transcriptionDisplayOk, hlen]
      · refine ⟨⟨markerDict targets unavailMarker, ?_⟩, Or.inl ⟨unavailMarker, ?_⟩⟩ <;>
          simp [postProcess, transcriptionDisplayOk, hlen, unavailResult]
    | num n => exact ⟨⟨markerDict targets unavailMarker, rfl⟩, Or.inl ⟨unavailMarker, rfl⟩⟩
    | bool b => exact ⟨⟨markerDict targets unavailMarker, rfl⟩, Or.inl ⟨unavailMarker, rfl⟩⟩
    | null => exact ⟨⟨markerDict targets unavailMarker, rfl⟩, Or.inl ⟨unavailMarker, rfl⟩⟩
  | str s => exact ⟨⟨markerDict targets unavailMarker, rfl⟩, Or.inl ⟨unavailMarker, rfl⟩⟩
  | num n => exact ⟨⟨markerDict targets unavailMarker, rfl⟩, Or.inl ⟨unavailMarker, rfl⟩⟩
  | bool b => exact ⟨⟨markerDict targets unavailMarker, rfl⟩, Or.inl ⟨unavailMarker, rfl⟩⟩
  | null => exact ⟨⟨markerDict targets unavailMarker, rfl⟩, Or.inl ⟨unavailMarker, rfl⟩⟩
  | arr xs => exact ⟨⟨markerDict targets unavailMarker, rfl⟩, Or.inl ⟨unavailMarker, rfl⟩⟩

/-- Claim C2 (amended). For every input and model-service behaviour,
process_audio_segment returns a result (the embedding is a total function:
every Python raise site is caught, reproduced here as explicit branches)
whose translations field is always a JSON object; its transcription is a
string in the empty-input, filtered and failure paths, and on a successful
response the result is exactly the parsed response, whose transcription can
be a non-string JSON array or object of at most 50 elements passed through
verbatim (the counterexample); all other non-string values trigger the
unavailable-marker fallback. -/
theorem C2_process_total_shape (custom : Option String) (source : String)
    (wavNonempty : Bool) (targets : List String)
    (respond : Nat → String → AttemptOutcome) :
    (∃ d, (process_audio_segment custom source wavNonempty targets respond).translations
        = Json.obj d) ∧
    ((∃ s, (process_audio_segment custom source wavNonempty targets respond).transcription
        = Json.str s) ∨
     ∃ text, process_audio_segment custom source wavNonempty targets respond
         = parse_response text targets ∧
       ((∃ xs, (parse_response text targets).transcription = Json.arr xs ∧ xs.length ≤ 50) ∨
        (∃ kvs, (parse_response text targets).transcription = Json.obj kvs ∧ kvs.length ≤ 50))) := by
  unfold process_audio_segment
  cases wavNonempty with
  | false => exact ⟨⟨[], rfl⟩, Or.inl ⟨"", rfl⟩⟩
  | true =>
    simp only [if_true]
    cases h0 : respond 0 (build_prompt custom source targets) with
    | ok text =>
      rcases postProcess_shape targets (parse_response text targets) with ⟨hobj, hstr | ⟨heq, hrest⟩⟩
      · exact ⟨hobj, Or.inl hstr⟩
      · exact ⟨hobj, Or.inr ⟨text, heq, hrest⟩⟩
    | errFatal m =>
      exact ⟨⟨markerDict targets unavailMarker, rfl⟩, Or.inl ⟨unavailMarker, rfl⟩⟩
    | blocked =>
      cases h1 : respond 1 (build_simple_prompt custom source targets) with
      | ok text =>
        rcases postProcess_shape targets (parse_response text targets) with ⟨hobj, hstr | ⟨heq, hrest⟩⟩
        · exact ⟨hobj, Or.inl hstr⟩
        · exact ⟨hobj, Or.inr ⟨text, heq, hrest⟩⟩
      | blocked =>
        exact ⟨⟨markerDict targets filteredMarker, rfl⟩, Or.inl ⟨filteredMarker, rfl⟩⟩
      | errRetryable m =>
        exact ⟨⟨markerDict targets unavailMarker, rfl⟩, Or.inl ⟨unavailMarker, rfl⟩⟩
      | errFatal m =>
        exact ⟨⟨markerDict targets unavailMarker, rfl⟩, Or.inl ⟨unavailMarker, rfl⟩⟩
    | errRetryable m =>
      cases h1 : respond 1 (build_simple_prompt custom source targets) with
      | ok text =>
        rcases postProcess_shape targets (parse_response text targets) with ⟨hobj, hstr | ⟨heq, hrest⟩⟩
        · exact ⟨hobj, Or.inl hstr⟩
        · exact ⟨hobj, Or.inr ⟨text, heq, hrest⟩⟩
      | blocked =>
        exact ⟨⟨markerDict targets filteredMarker, rfl⟩, Or.inl ⟨filteredMarker, rfl⟩⟩
      | errRetryable m2 =>
        exact ⟨⟨markerDict targets unavailMarker, rfl⟩, Or.inl ⟨unavailMarker, rfl⟩⟩
      | errFatal m2 =>
        exact ⟨⟨markerDict targets unavailMarker, rfl⟩, Or.inl ⟨unavailMarker, rfl⟩⟩

/-- Claim C2 counterexample: a syntactically valid model response whose
transcription field is a JSON array is passed through verbatim, so the
returned transcription is not a string, refuting the claim as stated. -/
theorem C2_process_total_shape_cx :
    (process_audio_segment none "English" true ["es"]
       (fun _ _ => AttemptOutcome.ok
         "\x7b\"transcription\": [\"a\"], \"translations\": \x7b\"es\": \"x\"\x7d\x7d")).transcription
      = Json.arr [Json.str "a"]
    ∧ ¬ ∃ s, (process_audio_segment none "English" true ["es"]
       (fun _ _ => AttemptOutcome.ok
         "\x7b\"transcription\": [\"a\"], \"translations\": \x7b\"es\": \"x\"\x7d\x7d")).transcription
      = Json.str s := by
  have h1 : (process_audio_segment none "English" true ["es"]
       (fun _ _ => AttemptOutcome.ok
         "\x7b\"transcription\": [\"a\"], \"translations\": \x7b\"es\": \"x\"\x7d\x7d")).transcription
      = Json.arr [Json.str "a"] := rfl
  refine ⟨h1, ?_⟩
  rintro ⟨s, hs⟩
  rw [h1] at hs
  exact Json.noConfusion hs

/-! ## Claim C3 -/

/-- Claim C3. process_audio_segment consults the model service at most
twice per segment: two services agreeing on attempt 0 with the full prompt
of _build_prompt and on attempt 1 with the simpler prompt of
_build_simple_prompt yield identical results (no third call can be
observed), and the retry is issued with the simpler prompt.  When both
attempts are blocked by the safety filter, the transcription and the
translation of every requested language all equal the filtered-content
marker. -/
theorem C3_retry_policy (custom : Option String) (source : String) (targets : List String)
    (respond respond2 : Nat → String → AttemptOutcome) :
    ((respond 0 (build_prompt custom source targets)
        = respond2 0 (build_prompt custom source targets)) →
     (respond 1 (build_simple_prompt custom source targets)
        = respond2 1 (build_simple_prompt custom source targets)) →
     process_audio_segment custom source true targets respond
       = process_audio_segment custom source true targets respond2) ∧
    (respond 0 (build_prompt custom source targets) = AttemptOutcome.blocked →
     respond 1 (build_simple_prompt custom source targets) = AttemptOutcome.blocked →
     (process_audio_segment custom source true targets respond).transcription
         = Json.str filteredMarker ∧
     ∃ d, (process_audio_segment custom source true targets respond).translations = Json.obj d ∧
       ∀ lang ∈ targets, objLookup d lang = some (Json.str filteredMarker)) := by
  constructor
  · intro h0 h1
    cases e0 : respond 0 (build_prompt custom source targets) <;>
      cases e1 : respond 1 (build_simple_prompt custom source targets) <;>
        simp [process_audio_segment, e0, e1, h0.symm.trans e0, h1.symm.trans e1]
  · intro hb0 hb1
    refine ⟨?_, markerDict targets filteredMarker, ?_,
        fun lang hl => markerDict_lookup targets filteredMarker lang hl⟩ <;>
      simp [process_audio_segment, hb0, hb1, filteredResult]

/-- Claim C3 witness: with both attempts blocked, the concrete result is
the filtered-content marker. -/
theorem C3_retry_policy_witness :
    (process_audio_segment none "English" true ["es"]
        (fun _ _ => AttemptOutcome.blocked)).transcription = Json.str filteredMarker :=
  ((C3_retry_policy none "English" ["es"] (fun _ _ => AttemptOutcome.blocked)
      (fun _ _ => AttemptOutcome.blocked)).2 rfl rfl).1

/-! ## Claim C4 -/

/-- A found character index points at that character. -/
theorem charIdx_drop_head (ch : Char) :
    ∀ (l : List Char) (i : Nat), charIdx ch l = some i → ∃ rest, l.drop i = ch :: rest := by
  intro l
  induction l with
  | nil => intro i h; exact absurd h (by simp [charIdx])
  | cons x xs ih =>
    intro i h
    by_cases hx : x = ch
    · subst hx
      simp only [charIdx, if_true] at h
      injection h with h0
      subst h0
      exact ⟨xs, rfl⟩
    · simp only [charIdx, hx, if_false] at h
      rcases Option.map_eq_some'.mp h with ⟨j, hj, hji⟩
      subst hji
      simpa using ih j hj

/-- When a character never occurs, its first-index search fails. -/
theorem charIdx_none_count (ch : Char) :
    ∀ (l : List Char), charIdx ch l = none → l.count ch = 0 := by
  intro l
  induction l with
  | nil => intro h; rfl
  | cons x xs ih =>
    intro h
    by_cases hx : x = ch
    · subst hx; simp [charIdx] at h
    · simp only [charIdx, hx, if_false, Option.map_eq_none'] at h
      simp [List.count_cons, ih h, hx]

/-- A failing rindex means the character does not occur. -/
theorem lastCharIdx_none_count (ch : Char) (l : List Char)
    (h : lastCharIdx ch l = none) : l.count ch = 0 := by
  have hrev : charIdx ch l.reverse = none := by
    by_contra hc
    rcases Option.ne_none_iff_exists'.mp hc with ⟨j, hj⟩
    simp [lastCharIdx, hj] at h
  have := charIdx_none_count ch l.reverse hrev
  simpa [List.count_reverse] using this

/-- Claim C4 (amended). When the cleaned response contains an opening brace
but no closing brace anywhere, the repair appends exactly the difference
between the open-brace and close-brace counts of the truncated tail;
a response cut off between complete JSON values with two unmatched opening
braces then decodes successfully (the scenario from the claim).  The repair
does not make every truncated response decodable: truncation inside a
string literal still fails after repair (see the counterexample). -/
theorem C4_truncation_repair :
    (∀ (c : List Char) (i : Nat), charIdx '\x7b' c = some i → lastCharIdx '\x7d' c = none →
       extractJson c
         = c.drop i
           ++ List.replicate ((c.drop i).count '\x7b' - (c.drop i).count '\x7d') '\x7d') ∧
    (extractJson (cleanResponse "\x7b\"transcription\": \"hi\", \"translations\": \x7b\"es\": \"hola\"".data)
       = "\x7b\"transcription\": \"hi\", \"translations\": \x7b\"es\": \"hola\"".data ++ "\x7d\x7d".data ∧
     parse_response "\x7b\"transcription\": \"hi\", \"translations\": \x7b\"es\": \"hola\"" ["es"]
       = { transcription := Json.str "hi", translations := Json.obj [("es", Json.str "hola")] }) := by
  constructor
  · intro c i hidx hnone
    have hclose : (c.drop i).count '\x7d' = 0 := by
      have hsub : (c.drop i).count '\x7d' ≤ c.count '\x7d' :=
        (List.drop_sublist i c).count_le '\x7d'
      have := lastCharIdx_none_count '\x7d' c hnone
      omega
    have hopen : 1 ≤ (c.drop i).count '\x7b' := by
      rcases charIdx_drop_head '\x7b' c i hidx with ⟨rest, hrest⟩
      rw [hrest]
      simp [List.count_cons]
    simp only [extractJson, hidx, hnone]
    rw [if_pos (by omega)]
  · exact ⟨rfl, rfl⟩

/-- Claim C4 counterexample: a response truncated inside a string literal is
repaired by appending one closing brace, but the repaired text still fails
to decode — the JSON-decode failure path is taken instead, refuting the
claim that the repaired text always parses. -/
theorem C4_truncation_repair_cx :
    extractJson (cleanResponse "\x7b\"transcription\": \"hi".data)
      = "\x7b\"transcription\": \"hi\x7d".data
    ∧ json_loads (extractJson (cleanResponse "\x7b\"transcription\": \"hi".data)) = none
    ∧ parse_response "\x7b\"transcription\": \"hi" ["es"]
      = { transcription := Json.str unavailMarker,
          translations := Json.obj [("es", Json.str jsonErrMarker)] } :=
  ⟨rfl, rfl, rfl⟩

/-- Claim C4 witness: the repair-count statement applied at a concrete
truncated input. -/
theorem C4_truncation_repair_witness :
    charIdx '\x7b' "\x7bab".data = some 0 ∧
    extractJson "\x7bab".data
      = "\x7bab".data.drop 0
        ++ List.replicate (("\x7bab".data.drop 0).count '\x7b'
            - ("\x7bab".data.drop 0).count '\x7d') '\x7d' :=
  ⟨by decide, C4_truncation_repair.1 "\x7bab".data 0 (by decide) (by decide)⟩

/-! ## Claim C5 -/

/-- Claim C5. add_language and remove_language are idempotent on the
active-language set: adding a present code or removing an absent one leaves
the state unchanged (the guard makes it a no-op, not an error), and a
double add or double remove equals the single call. -/
theorem C5_language_mutation_idempotent (s : APState) (code : String) :
    (code ∈ s.active_languages → add_language s code = s) ∧
    (code ∉ s.active_languages → remove_language s code = s) ∧
    add_language (add_language s code) code = add_language s code ∧
    remove_language (remove_language s code) code = remove_language s code := by
  refine ⟨fun hmem => ?_, fun hout => ?_, ?_, ?_⟩
  · simp [add_language, hmem]
  · simp [remove_language, hout]
  · by_cases hmem : code ∈ s.active_languages
    · simp [add_language, hmem]
    · simp [add_language, hmem]
  · by_cases hmem : code ∈ s.active_languages
    · simp [remove_language, hmem]
    · simp [remove_language, hmem]

/-- Claim C5 witness: the idempotence statements at a concrete state. -/
theorem C5_language_mutation_idempotent_witness :
    "es" ∈ ({ active_languages := {"es"}, source_language := "English",
              source_language_code := "en" } : APState).active_languages ∧
    add_language { active_languages := {"es"}, source_language := "English",
                   source_language_code := "en" } "es"
      = { active_languages := {"es"}, source_language := "English",
          source_language_code := "en" } :=
  ⟨by decide,
   (C5_language_mutation_idempotent
      { active_languages := {"es"}, source_language := "English",
        source_language_code := "en" } "es").1 (by decide)⟩

/-! ## Claim C7 -/

/-- Claim C7. An end-of-speech event with a non-empty frame buffer yields a
segment whose duration is the total sample count (bytes divided by two per
frame, summed) divided by the sample rate taken from the first frame; a
16000-sample segment at 16000 Hz lasts exactly one second; an empty frame
buffer emits no segment. -/
theorem C7_segment_duration :
    segment_of_frames [] = none ∧
    (∀ (f : AudioFrame) (fs : List AudioFrame),
      segment_of_frames (f :: fs)
        = some { sample_rate := f.sample_rate,
                 total_samples := ((f :: fs).map (fun fr => fr.dataByteLen / 2)).sum,
                 duration := ((((f :: fs).map (fun fr => fr.dataByteLen / 2)).sum : ℕ) : ℚ)
                   / ((f.sample_rate : ℕ) : ℚ) }) ∧
    segment_of_frames [{ dataByteLen := 32000, sample_rate := 16000 }]
      = some { sample_rate := 16000, total_samples := 16000, duration := 1 } := by
  refine ⟨rfl, fun f fs => rfl, ?_⟩
  simp only [segment_of_frames, List.map_cons, List.map_nil, List.sum_cons, List.sum_nil]
  norm_num

/-! ## Claim C10 -/

/-- A single attribute-change event can only enlarge the active set. -/
theorem active_monotone_step (changed : List (String × String)) (s : APState) :
    s.active_languages ⊆ (on_attributes_changed changed s).active_languages := by
  unfold on_attributes_changed
  cases strLookup changed "speaking_language" with
  | none =>
    cases strLookup changed "captions_language" with
    | none => exact Finset.Subset.refl _
    | some v =>
      by_cases hmem : v ∈ s.active_languages
      · simp [add_language, hmem]
      · simp only [add_language, hmem, if_false]
        exact Finset.subset_insert v s.active_languages
  | some w =>
    cases strLookup changed "captions_language" with
    | none => exact Finset.Subset.refl _
    | some v =>
      by_cases hmem : v ∈ (set_source_language s w).active_languages
      · simp only [add_language, hmem, if_true]
        exact Finset.Subset.refl _
      · simp only [add_language, hmem, if_false]
        exact Finset.subset_insert v s.active_languages

/-- Claim C10 (implicit). The room event handlers only add languages and
set the source language, never remove: across any single attribute-change
event and any sequence of such events, the active-language set after
handling is a superset of the set before, so a requested language stays
active for the rest of the session. -/
theorem C10_active_languages_monotone (changed : List (String × String)) (s : APState)
    (events : List (List (String × String))) :
    s.active_languages ⊆ (on_attributes_changed changed s).active_languages ∧
    s.active_languages
      ⊆ (events.foldl (fun st e => on_attributes_changed e st) s).active_languages := by
  refine ⟨active_monotone_step changed s, ?_⟩
  induction events generalizing s with
  | nil => exact Finset.Subset.refl _
  | cons e rest ih =>
    simp only [List.foldl_cons]
    exact (active_monotone_step e s).trans (ih (on_attributes_changed e s))

/-! ## Claims C8 and C9 -/

/-- The publish call never propagates an error, so the per-language loop
attempts every entry and reports no abort, whatever the transport does. -/
theorem publishLoop_all (fails : Nat → Bool) :
    ∀ (es : List (String × Json)) (i : Nat), publishLoop fails i es = (es, none) := by
  intro es
  induction es with
  | nil => intro i; rfl
  | cons e rest ih =>
    intro i
    have hok : publish_transcription_res (fails i) = Except.ok () := by
      cases h : fails i <;> simp [publish_transcription_res, roomPublish]
    simp [publishLoop, hok, ih (i + 1)]

/-- Claim C8. For one segment, no translation is ever published before the
transcription: with a room present and a truthy transcription, the publish
sequence starts with the transcription under the source language code and
continues with exactly the translations entries, each under its own
language code, in order. -/
theorem C8_transcription_published_first (sourceCode : String) (r : TResult)
    (d : List (String × Json)) (fails : Nat → Bool)
    (htr : r.translations = Json.obj d) (ht : jtruthy r.transcription = true) :
    translate_and_publish true sourceCode r fails
      = (sourceCode, r.transcription) :: d := by
  unfold translate_and_publish
  rw [htr]
  cases d with
  | nil => simp [ht, show jtruthy (Json.obj []) = false from rfl]
  | cons p rest =>
    simp [ht, show jtruthy (Json.obj (p :: rest)) = true from rfl, publishLoop_all]

/-- Claim C8 witness: concrete publish order for one result. -/
theorem C8_transcription_published_first_witness :
    jtruthy (Json.str "hello") = true ∧
    translate_and_publish true "en"
        { transcription := Json.str "hello", translations := Json.obj [("es", Json.str "hola")] }
        (fun _ => false)
      = ("en", Json.str "hello") :: [("es", Json.str "hola")] :=
  ⟨by decide,
   C8_transcription_published_first "en"
     { transcription := Json.str "hello", translations := Json.obj [("es", Json.str "hola")] }
     [("es", Json.str "hola")] (fun _ => false) rfl (by decide)⟩

/-- Claim C9. A transport failure on any publish never propagates and never
prevents the remaining languages of the same segment: the loop attempts a
publish for every translations entry with no abort, and the whole publish
sequence of translate_and_publish is identical under any two
transport-failure behaviours. -/
theorem C9_publish_failures_isolated (fails fails2 : Nat → Bool) (i : Nat)
    (es : List (String × Json)) (hasRoom : Bool) (sourceCode : String) (r : TResult) :
    publishLoop fails i es = (es, none) ∧
    translate_and_publish hasRoom sourceCode r fails
      = translate_and_publish hasRoom sourceCode r fails2 := by
  refine ⟨publishLoop_all fails es i, ?_⟩
  unfold translate_and_publish
  cases htr : r.translations <;> simp [publishLoop_all]

/-! ## Claim C6 -/

/-- Suffix consisting of the last n elements. -/
def takeLast {α : Type} (n : Nat) (l : List α) : List α :=
  l.drop (l.length - n)

/-- Lists within the bound are kept whole. -/
theorem takeLast_of_le {α : Type} {n : Nat} {l : List α} (h : l.length ≤ n) :
    takeLast n l = l := by
  simp [takeLast, Nat.sub_eq_zero_of_le h]

/-- The suffix never exceeds the bound. -/
theorem takeLast_length_le {α : Type} (n : Nat) (l : List α) :
    (takeLast n l).length ≤ n := by
  simp only [takeLast, List.length_drop]
  omega

/-- The bounded deque append keeps exactly the last maxlen elements. -/
theorem dequeAppend_eq_takeLast (m : Nat) (h : List HistoryMsg) (x : HistoryMsg) :
    dequeAppend m h x = takeLast m (h ++ [x]) := by
  unfold dequeAppend takeLast
  split
  · rfl
  · next hnot => rw [Nat.sub_eq_zero_of_le (Nat.le_of_not_lt hnot), List.drop_zero]

/-- Re-bounding an already bounded prefix changes nothing. -/
theorem takeLast_append_takeLast {α : Type} (m : Nat) (xs ys : List α) :
    takeLast m (takeLast m xs ++ ys) = takeLast m (xs ++ ys) := by
  by_cases hx : xs.length ≤ m
  · rw [takeLast_of_le hx]
  · have hm : m ≤ xs.length := le_of_lt (not_le.mp hx)
    have hlen : (takeLast m xs).length = m := by
      simp only [takeLast, List.length_drop]
      omega
    have key : takeLast m (xs ++ ys)
        = takeLast m (takeLast m xs ++ ys) := by
      calc takeLast m (xs ++ ys)
          = (xs ++ ys).drop ((xs.length - m) + ys.length) := by
            rw [takeLast]
            congr 1
            rw [List.length_append]
            omega
        _ = ((xs ++ ys).drop (xs.length - m)).drop ys.length :=
            (List.drop_drop ys.length (xs.length - m) (xs ++ ys)).symm
        _ = (xs.drop (xs.length - m) ++ ys).drop ys.length := by
            conv_lhs => rw [List.drop_append_of_le_length
              (show xs.length - m ≤ xs.length by omega)]
        _ = (takeLast m xs ++ ys).drop ((takeLast m xs ++ ys).length - m) := by
            congr 1
            rw [List.length_append, hlen]
            omega
        _ = takeLast m (takeLast m xs ++ ys) := rfl
    exact key.symm

/-- A long enough right part makes the left part irrelevant. -/
theorem takeLast_append_left {α : Type} (m : Nat) (xs ys : List α) (h : m ≤ ys.length) :
    takeLast m (xs ++ ys) = takeLast m ys := by
  calc takeLast m (xs ++ ys)
      = (xs ++ ys).drop (xs.length + (ys.length - m)) := by
        rw [takeLast]
        congr 1
        rw [List.length_append]
        omega
    _ = ((xs ++ ys).drop xs.length).drop (ys.length - m) :=
        (List.drop_drop (ys.length - m) xs.length (xs ++ ys)).symm
    _ = ys.drop (ys.length - m) := by rw [List.drop_left]
    _ = takeLast m ys := rfl

/-- A suffix within the bound survives the bounding. -/
theorem takeLast_append_suffix {α : Type} (m : Nat) (h s : List α) (hs : s.length ≤ m) :
    ∃ pre, takeLast m (h ++ s) = pre ++ s := by
  refine ⟨h.drop ((h.length + s.length) - m), ?_⟩
  rw [takeLast, List.length_append]
  exact List.drop_append_of_le_length (by omega)

/-- One history update equals appending the two entries and keeping the
last maxlen messages. -/
theorem update_history_eq_takeLast (m : Nat) (h : List HistoryMsg) (t : String)
    (trs : List (String × String)) :
    update_history true m h t trs = takeLast m (h ++ [mkUserMsg t, mkModelMsg trs]) := by
  unfold update_history
  simp only [if_true]
  rw [dequeAppend_eq_takeLast, dequeAppend_eq_takeLast, takeLast_append_takeLast,
    List.append_assoc]
  rfl

/-- Folding history updates from a bounded start keeps the last maxlen
messages of the full appended sequence. -/
theorem foldl_update_history (m : Nat) (ps : List (String × List (String × String))) :
    ∀ h : List HistoryMsg, h.length ≤ m →
      List.foldl (fun acc p => update_history true m acc p.1 p.2) h ps
        = takeLast m (h ++ (ps.map (fun p => [mkUserMsg p.1, mkModelMsg p.2])).flatten) := by
  induction ps with
  | nil =>
    intro h hh
    simp [takeLast_of_le hh]
  | cons p rest ih =>
    intro h hh
    simp only [List.foldl_cons, List.map_cons, List.flatten_cons]
    rw [update_history_eq_takeLast]
    rw [ih _ (takeLast_length_le m _)]
    rw [takeLast_append_takeLast, List.append_assoc]

/-- Pairwise flattening commutes with the sliding window when every block
has exactly two entries. -/
theorem takeLast_flatten_pairs {α β : Type} (f : α → List β) (hf : ∀ p, (f p).length = 2)
    (N : Nat) : ∀ ps : List α,
      takeLast (2 * N) ((ps.map f).flatten) = ((takeLast N ps).map f).flatten := by
  have hjoin : ∀ ps : List α, ((ps.map f).flatten).length = 2 * ps.length := by
    intro ps
    induction ps with
    | nil => rfl
    | cons p rest ih =>
      simp only [List.map_cons, List.flatten_cons, List.length_append, hf p, ih,
        List.length_cons]
      omega
  intro ps
  induction ps with
  | nil => simp [takeLast]
  | cons p rest ih =>
    by_cases hr : N ≤ rest.length
    · have h2 : 2 * N ≤ ((rest.map f).flatten).length := by
        rw [hjoin rest]
        omega
      rw [List.map_cons, List.flatten_cons, takeLast_append_left _ _ _ h2, ih]
      have hcons : takeLast N (p :: rest) = takeLast N rest := by
        have hstep := takeLast_append_left N [p] rest hr
        simpa using hstep
      rw [hcons]
    · have hlt : rest.length < N := not_le.mp hr
      have hlen1 : (p :: rest).length ≤ N := by
        simp only [List.length_cons]
        omega
      have hlen2 : (((p :: rest).map f).flatten).length ≤ 2 * N := by
        rw [hjoin]
        simp only [List.length_cons]
        omega
      rw [takeLast_of_le hlen1, takeLast_of_le hlen2]

/-- Claim C6. The conversation history is a sliding window: starting empty,
after any sequence of _update_history calls with pair limit N the deque
holds at most 2 times N messages; every update appends its two entries
(transcription first, translations second) at the tail; and the final
content is exactly the flattened last N pairs in oldest-first order, the
older pairs having been evicted first. -/
theorem C6_history_sliding_window (N : Nat) (hN : 1 ≤ N)
    (ps : List (String × List (String × String))) :
    (List.foldl (fun acc p => update_history true (historyMaxlen N) acc p.1 p.2) [] ps).length
        ≤ 2 * N ∧
    (∀ (h : List HistoryMsg) (t : String) (trs : List (String × String)),
      ∃ pre, update_history true (historyMaxlen N) h t trs
        = pre ++ [mkUserMsg t, mkModelMsg trs]) ∧
    List.foldl (fun acc p => update_history true (historyMaxlen N) acc p.1 p.2) [] ps
      = ((takeLast N ps).map (fun p => [mkUserMsg p.1, mkModelMsg p.2])).flatten := by
  have hm : historyMaxlen N = 2 * N := rfl
  have hfold := foldl_update_history (historyMaxlen N) ps [] (by simp)
  refine ⟨?_, ?_, ?_⟩
  · rw [hfold, hm]
    exact takeLast_length_le (2 * N) _
  · intro h t trs
    rw [update_history_eq_takeLast]
    exact takeLast_append_suffix (historyMaxlen N) h [mkUserMsg t, mkModelMsg trs]
      (by simp only [List.length_cons, List.length_nil, hm]; omega)
  · rw [hfold, List.nil_append, hm]
    exact takeLast_flatten_pairs (fun p => [mkUserMsg p.1, mkModelMsg p.2])
      (fun p => rfl) N ps

/-- Claim C6 witness: the bound applied with the configured pair limit on a
concrete sequence of updates. -/
theorem C6_history_sliding_window_witness :
    1 ≤ max_context_segments ∧
    (List.foldl
        (fun acc p => update_history true (historyMaxlen max_context_segments) acc p.1 p.2) []
        [("a", [("es", "x")]), ("b", [("es", "y")])]).length ≤ 2 * max_context_segments :=
  ⟨by decide,
   (C6_history_sliding_window max_context_segments (by decide)
      [("a", [("es", "x")]), ("b", [("es", "y")])]).1⟩
